import Mathlib

/-!
Verification development for the machetli minimization engine.

The definitions below are a shallow embedding of the repository sources:

* `machetli/search.py` — the search engine and the evaluator driver loop
  (`search`, `_get_improving_successor`, `on_task_completed`);
* `machetli/sas/files.py` — the grounded-task (SAS) reader, the writer it is
  paired with, the `renamed_sas` transformation and the `temporary_file`
  context manager;
* `machetli/pddl/files.py` — domain-file discovery and the evaluator shim.

Python iterators over lines are modelled by explicit `List String` state
passing; Python exceptions (`AssertionError`, `ValueError`, `IndexError`,
`StopIteration`) are modelled by an error enumeration threaded through
`Except`; Python `sys.exit` and process outcomes are modelled by explicit
result datatypes.
-/

namespace Machetli

/-! ## Evaluation-task statuses and tasks (machetli/search.py) -/

/-- The five terminal statuses of an evaluation task
(`EvaluationTask.DONE_AND_BEHAVIOR_PRESENT`, `…_NOT_PRESENT`,
`OUT_OF_RESOURCES`, `CRITICAL`, `CANCELED`). -/
inductive Status where
  | donePresent
  | doneNotPresent
  | outOfResources
  | critical
  | canceled
deriving DecidableEq

/-- A completed evaluation task as the driver loop in
`_get_improving_successor` sees it: its position in the batch
(`successor_id`), the successor payload (`successor.state`,
`successor.change_msg`), and bookkeeping fields (`run_dir`, `error_msg`,
`status`).  The state type is a parameter `σ`. -/
structure EvalTask (σ : Type) where
  successor_id : Nat
  state : σ
  change_msg : String
  run_dir : String
  error_msg : String
  status : Status
deriving DecidableEq

/-- `on_task_completed` from `_get_improving_successor`
(src/machetli/search.py lines 148-161): in deterministic mode any
non-`BehaviorNotPresent` completion cancels all ids greater than the
completed id; in eager mode a `BehaviorPresent` completion cancels the whole
batch; otherwise nothing is cancelled (`None`). -/
def on_task_completed {σ : Type} (deterministic : Bool) (task_ids : List Nat)
    (task : EvalTask σ) : Option (List Nat) :=
  if deterministic = true ∧ task.status ≠ Status.doneNotPresent then
    some (task_ids.filter (fun i => decide (task.successor_id < i)))
  else if deterministic = false ∧ task.status = Status.donePresent then
    some task_ids
  else
    none

/-- Message appended to `task.error_msg` when a deterministic run hits
`OUT_OF_RESOURCES` (src/machetli/search.py lines 171-174). -/
def oorDetNote : String :=
  "\nAn evaluator ran out of resources. With the option \x27deterministic\x27 an improving successor found later would not count."

/-- Message appended to `task.error_msg` when a deterministic run hits
`CRITICAL` (src/machetli/search.py lines 179-182). -/
def critDetNote : String :=
  "\nA critical error occurred in an evaluator. With the option \x27deterministic\x27 an improving successor found later would not count."

/-- Result of the per-batch verdict loop of `_get_improving_successor`:
either an improving successor was returned, or the function returned
`(None, msg)`, or the `assert not deterministic` in the `CANCELED` branch
failed, or the loop fell through to the next batch carrying the accumulated
out-of-resources tasks. -/
inductive BatchStep (σ : Type) where
  | found (s : σ) (msg : String)
  | abort (msg : String)
  | assertFail
  | next (oor : List (EvalTask σ))
deriving DecidableEq

/-- The `for task in tasks:` verdict loop of `_get_improving_successor`
(src/machetli/search.py lines 164-190), processing the completed tasks of
one batch in the order the environment reports them.  `oor` is the
`tasks_out_of_resources` accumulator. -/
def processTasks {σ : Type} (deterministic : Bool) (oor : List (EvalTask σ)) :
    List (EvalTask σ) → BatchStep σ
  | [] => BatchStep.next oor
  | t :: ts =>
    match t.status with
    | Status.doneNotPresent => processTasks deterministic oor ts
    | Status.donePresent => BatchStep.found t.state t.change_msg
    | Status.outOfResources =>
      if deterministic then BatchStep.abort (t.error_msg ++ oorDetNote)
      else processTasks deterministic (oor ++ [t]) ts
    | Status.critical =>
      if deterministic then BatchStep.abort (t.error_msg ++ critDetNote)
      else processTasks deterministic oor ts
    | Status.canceled =>
      if deterministic then BatchStep.assertFail
      else processTasks deterministic oor ts

/-- Stable insertion of a string into a sorted list (used to model
Python `sorted`). -/
def insertSorted (a : String) : List String → List String
  | [] => [a]
  | b :: bs => if a ≤ b then a :: b :: bs else b :: insertSorted a bs

/-- Python `sorted` on strings, as a structural insertion sort. -/
def sortStrings : List String → List String
  | [] => []
  | a :: as_ => insertSorted a (sortStrings as_)

/-- The final "No improving successor was found." message of
`_get_improving_successor` (src/machetli/search.py lines 192-199), listing
the sorted run directories of tasks that ran out of resources. -/
def noImproverMessage {σ : Type} (oor : List (EvalTask σ)) : String :=
  let base := "No improving successor was found."
  if oor.isEmpty then base
  else
    base ++ " Note that the following tasks ran out of resources and thus could not successfully be checked:\n"
      ++ String.intercalate "\n" (sortStrings (oor.map (fun t => t.run_dir)))

/-- Overall outcome of `_get_improving_successor`: the pair
`(state, change_msg)` of an accepted successor, or `(None, message)`, or an
uncaught `AssertionError` from the `CANCELED` branch. -/
inductive GsOutcome (σ : Type) where
  | improver (s : σ) (msg : String)
  | noImprover (msg : String)
  | assertionFailure
deriving DecidableEq

/-- The batch loop of `_get_improving_successor`
(src/machetli/search.py lines 144-199).  The environment's work — turning
each batch of successors into a list of completed tasks — is outside
src/ (`environment.run`); its per-batch output lists are taken as input
here, in the order `environment.run` returns the tasks. -/
def gisGo {σ : Type} (deterministic : Bool) (oor : List (EvalTask σ)) :
    List (List (EvalTask σ)) → GsOutcome σ
  | [] => GsOutcome.noImprover (noImproverMessage oor)
  | b :: bs =>
    match processTasks deterministic oor b with
    | BatchStep.found s m => GsOutcome.improver s m
    | BatchStep.abort m => GsOutcome.noImprover m
    | BatchStep.assertFail => GsOutcome.assertionFailure
    | BatchStep.next oor2 => gisGo deterministic oor2 bs

/-- `_get_improving_successor`, starting from an empty
`tasks_out_of_resources` set. -/
def get_improving_successor {σ : Type} (deterministic : Bool)
    (batches : List (List (EvalTask σ))) : GsOutcome σ :=
  gisGo deterministic [] batches

/-! ## The initial-state check of `search` (src/machetli/search.py 99-119) -/

/-- Log levels used by the initial-state check. -/
inductive LogLevel where
  | info
  | warning
  | critical
deriving DecidableEq

/-- The body of the `for task in tasks:` loop that verifies the initial
state (src/machetli/search.py lines 102-119), for one task status.  The
returned pair is the log lines emitted and, when the branch raises
`ValueError`, the message of that exception (`none` means the loop body
falls through without raising).  The trailing `else` branch (`Unexpected
task status`) is unreachable for the five-value status enumeration and has
no corresponding case here. -/
def checkInitialTask (deterministic : Bool) (s : Status) :
    List (LogLevel × String) × Option String :=
  match s with
  | Status.donePresent => ([(LogLevel.info, "Initial has property.")], none)
  | Status.doneNotPresent =>
    ([(LogLevel.critical, "Initial state does not have property!")],
     some "Initial state does not have the evaluated property.")
  | Status.outOfResources =>
    ([(LogLevel.warning, "Initial state evaluation ran out of resources! Cannot verify if it has the property.")],
     if deterministic then
       some "Initial state evaluation ran out of resources! Cannot verify if it has the evaluated property."
     else none)
  | Status.critical =>
    ([(LogLevel.critical, "Initial state evaluation failed with a critical error! Cannot verify if it has the property.")],
     if deterministic then
       some "Initial state evaluation failed with a critical error! Cannot verify if it has the evaluated property."
     else none)
  | Status.canceled =>
    ([(LogLevel.warning, "Initial state evaluation was canceled. Cannot verify if it has the property.")],
     none)

/-! ## The iteration loop of `search` (src/machetli/search.py 125-141) -/

/-- The exceptions `search` catches around `_get_improving_successor`. -/
inductive DriverErr where
  | submissionError (msg : String)
  | pollingError (msg : String)
deriving DecidableEq

/-- What one pass through the `while True:` body of `search` does after the
`try`/`except` block. -/
inductive StepResult (σ : Type) where
  | continueWith (s : σ)
  | returnCurrent
  | unboundLocalCrash
  | uncaughtAssertion
deriving DecidableEq

/-- One pass through the body of the `while True:` loop of `search`
(src/machetli/search.py lines 125-141), given the locals
`improving_state, message` left over from the previous pass (`none` on the
first pass, when they are still unassigned) and the outcome of
`_get_improving_successor` (`Except.error` when it raised
`SubmissionError`/`PollingError`).  The `except` clauses only log: control
then falls through to `if message:`/`if improving_state:`, which on the
first pass touches unassigned locals (an `UnboundLocalError`) and on later
passes re-reads the stale values of the previous pass.  An
`AssertionError` escaping `_get_improving_successor` is not caught. -/
def searchIterationStep {σ : Type} (prev : Option (Option σ × String))
    (r : Except DriverErr (GsOutcome σ)) : StepResult σ :=
  match r with
  | Except.error _ =>
    match prev with
    | none => StepResult.unboundLocalCrash
    | some (some s, _) => StepResult.continueWith s
    | some (none, _) => StepResult.returnCurrent
  | Except.ok (GsOutcome.improver s _) => StepResult.continueWith s
  | Except.ok (GsOutcome.noImprover _) => StepResult.returnCurrent
  | Except.ok GsOutcome.assertionFailure => StepResult.uncaughtAssertion

/-! ## Grounded-task (SAS) data model (machetli/sas/sas_tasks.py interface
as used by machetli/sas/files.py: constructor argument order
`SASTask(variables, mutexes, init, goal, operators, axioms, metric)`).
Integers are Python ints, modelled by `Int`. -/

/-- `SASVariables(ranges, axiom_layers, value_names)`. -/
structure SASVariables where
  ranges : List Int
  axiom_layers : List Int
  value_names : List (List String)
deriving DecidableEq

/-- `SASMutexGroup(facts)`. -/
structure SASMutexGroup where
  facts : List (Int × Int)
deriving DecidableEq

/-- `SASInit(values)`. -/
structure SASInit where
  values : List Int
deriving DecidableEq

/-- `SASGoal(pairs)`. -/
structure SASGoal where
  pairs : List (Int × Int)
deriving DecidableEq

/-- `SASOperator(name, prevail, pre_post, cost)`; each `pre_post` entry is
`(var, pre, post, cond)`. -/
structure SASOperator where
  name : String
  prevail : List (Int × Int)
  pre_post : List (Int × Int × Int × List (Int × Int))
  cost : Int
deriving DecidableEq

/-- `SASAxiom(condition, effect)` with `effect = (var, val)`. -/
structure SASRule where
  condition : List (Int × Int)
  effect : Int × Int
deriving DecidableEq

/-- The grounded task. -/
structure SASTask where
  vars : SASVariables
  mutexes : List SASMutexGroup
  init : SASInit
  goal : SASGoal
  operators : List SASOperator
  axioms : List SASRule
  metric : Bool
deriving DecidableEq

/-! ## Python primitives used by the reader -/

/-- The exceptions the reader in machetli/sas/files.py can raise: a failed
`assert`, a failed `int(...)` conversion or tuple unpacking
(`ValueError`), an out-of-range list index (`IndexError`), exhaustion of
the line iterator (`StopIteration`), and a failed `SASTask.validate()`. -/
inductive PyErr where
  | assertionError
  | valueError
  | indexError
  | stopIteration
  | validationError
deriving DecidableEq

deriving instance DecidableEq for Except

/-- Python `line.split(" ")` on the character list: split at every single
space, keeping empty segments. -/
def splitSpaceChars : List Char → List (List Char)
  | [] => [[]]
  | c :: rest =>
    let r := splitSpaceChars rest
    if c = ' ' then [] :: r
    else
      match r with
      | h :: t => (c :: h) :: t
      | [] => [[c]]

/-- Python `line.split(" ")`. -/
def pySplitSpace (s : String) : List String :=
  (splitSpaceChars s.toList).map String.mk

/-- Numeric value of a decimal digit character. -/
def digitVal (c : Char) : Nat := c.toNat - 48

/-- `int(s)` for a string of decimal digits. -/
def digitsToNat (cs : List Char) : Nat :=
  cs.foldl (fun a c => a * 10 + digitVal c) 0

/-- Python `range(z)` bound for an `int` that may be negative: negative
counts behave like zero. -/
def toNatC (z : Int) : Nat := if z ≤ 0 then 0 else z.toNat

/-- Python `int(s)`: an optional minus sign followed by at least one
decimal digit (the only shapes the grounded format uses); anything else
raises `ValueError`. -/
def pyInt (s : String) : Except PyErr Int :=
  match s.toList with
  | '-' :: rest =>
    if rest ≠ [] ∧ rest.all Char.isDigit then
      Except.ok (-(digitsToNat rest : Int))
    else Except.error PyErr.valueError
  | cs =>
    if cs ≠ [] ∧ cs.all Char.isDigit then Except.ok (digitsToNat cs : Int)
    else Except.error PyErr.valueError

/-- `next(lines)`: the head of the remaining lines, or `StopIteration`. -/
def pyNext (ls : List String) : Except PyErr (String × List String) :=
  match ls with
  | [] => Except.error PyErr.stopIteration
  | l :: rest => Except.ok (l, rest)

/-- `var, val = map(int, line.split(" "))`: both parts must parse as
integers and there must be exactly two of them, else `ValueError`. -/
def pyIntPair (line : String) : Except PyErr (Int × Int) :=
  match (pySplitSpace line).mapM pyInt with
  | Except.error e => Except.error e
  | Except.ok [a, b] => Except.ok (a, b)
  | Except.ok _ => Except.error PyErr.valueError

/-- `l[i]` on a Python list: `IndexError` when out of range
(only nonnegative indices occur in the reader). -/
def pyIndex {α : Type} (l : List α) (i : Nat) : Except PyErr α :=
  match l.get? i with
  | some a => Except.ok a
  | none => Except.error PyErr.indexError

/-- `assert cond` : `AssertionError` when the condition is false. -/
def pyAssert (b : Bool) : Except PyErr Unit :=
  if b then Except.ok () else Except.error PyErr.assertionError

/-! ## The SAS reader (src/machetli/sas/files.py 102-229) -/

/-- The `while True: line = next(lines)` loop at the top of `_read_task`
that discards lines until `begin_metric`. -/
def skipToMetric : List String → Except PyErr (List String)
  | [] => Except.error PyErr.stopIteration
  | l :: rest => if l = "begin_metric" then Except.ok rest else skipToMetric rest

/-- `_read_variables` (lines 132-147): reads `n` `begin_variable` …
`end_variable` sections.  The variable-name line is read and discarded. -/
def _read_variables (ls : List String) (n : Nat) :
    Except PyErr (SASVariables × List String) := do
  let rec go (ls : List String) (layers : List Int) (ranges : List Int)
      (names : List (List String)) :
      Nat → Except PyErr (SASVariables × List String)
    | 0 => Except.ok (⟨ranges, layers, names⟩, ls)
    | n + 1 => do
      let (l, ls) ← pyNext ls
      let _ ← pyAssert (l = "begin_variable")
      let (_, ls) ← pyNext ls
      let (l, ls) ← pyNext ls
      let layer ← pyInt l
      let (l, ls) ← pyNext ls
      let range ← pyInt l
      let rec readNames (ls : List String) (acc : List String) :
          Nat → Except PyErr (List String × List String)
        | 0 => Except.ok (acc, ls)
        | k + 1 => do
          let (l, ls) ← pyNext ls
          readNames ls (acc ++ [l]) k
      let (vals, ls) ← readNames ls [] (toNatC range)
      let (l, ls) ← pyNext ls
      let _ ← pyAssert (l = "end_variable")
      go ls (layers ++ [layer]) (ranges ++ [range]) (names ++ [vals]) n
  go ls [] [] [] n

/-- `_read_mutexes` (lines 150-161). -/
def _read_mutexes (ls : List String) (n : Nat) :
    Except PyErr (List SASMutexGroup × List String) := do
  let rec goFacts (ls : List String) (acc : List (Int × Int)) :
      Nat → Except PyErr (List (Int × Int) × List String)
    | 0 => Except.ok (acc, ls)
    | k + 1 => do
      let (l, ls) ← pyNext ls
      let p ← pyIntPair l
      goFacts ls (acc ++ [p]) k
  let rec go (ls : List String) (acc : List SASMutexGroup) :
      Nat → Except PyErr (List SASMutexGroup × List String)
    | 0 => Except.ok (acc, ls)
    | k + 1 => do
      let (l, ls) ← pyNext ls
      let _ ← pyAssert (l = "begin_mutex_group")
      let (l, ls) ← pyNext ls
      let numFacts ← pyInt l
      let (facts, ls) ← goFacts ls [] (toNatC numFacts)
      let (l, ls) ← pyNext ls
      let _ ← pyAssert (l = "end_mutex_group")
      go ls (acc ++ [SASMutexGroup.mk facts]) k
  go ls [] n

/-- `_read_init_state` (lines 164-171). -/
def _read_init_state (ls : List String) (numVars : Nat) :
    Except PyErr (SASInit × List String) := do
  let (l, ls) ← pyNext ls
  let _ ← pyAssert (l = "begin_state")
  let rec go (ls : List String) (acc : List Int) :
      Nat → Except PyErr (List Int × List String)
    | 0 => Except.ok (acc, ls)
    | k + 1 => do
      let (l, ls) ← pyNext ls
      let v ← pyInt l
      go ls (acc ++ [v]) k
  let (vals, ls) ← go ls [] numVars
  let (l, ls) ← pyNext ls
  let _ ← pyAssert (l = "end_state")
  Except.ok (SASInit.mk vals, ls)

/-- `_read_goal` (lines 174-182). -/
def _read_goal (ls : List String) : Except PyErr (SASGoal × List String) := do
  let (l, ls) ← pyNext ls
  let _ ← pyAssert (l = "begin_goal")
  let (l, ls) ← pyNext ls
  let numPairs ← pyInt l
  let rec go (ls : List String) (acc : List (Int × Int)) :
      Nat → Except PyErr (List (Int × Int) × List String)
    | 0 => Except.ok (acc, ls)
    | k + 1 => do
      let (l, ls) ← pyNext ls
      let p ← pyIntPair l
      go ls (acc ++ [p]) k
  let (pairs, ls) ← go ls [] (toNatC numPairs)
  let (l, ls) ← pyNext ls
  let _ ← pyAssert (l = "end_goal")
  Except.ok (SASGoal.mk pairs, ls)

/-- The effect-condition extraction of `_read_operators` (lines 199-204):
`effect_line[cond_num]`/`effect_line[cond_num + 1]` for
`cond_num in range(1, 2 * num_effect_conditions, 2)`. -/
def readConds (effectLine : List Int) (idx : Nat) :
    Nat → Except PyErr (List (Int × Int))
  | 0 => Except.ok []
  | k + 1 => do
    let v ← pyIndex effectLine idx
    let w ← pyIndex effectLine (idx + 1)
    let rest ← readConds effectLine (idx + 2) k
    Except.ok ((v, w) :: rest)

/-- `var, pre, post = effect_line[-3:]` (line 205): the last three entries;
`ValueError` unless the slice has exactly three elements. -/
def lastThree (l : List Int) : Except PyErr (Int × Int × Int) :=
  match l.drop (l.length - 3) with
  | [a, b, c] => Except.ok (a, b, c)
  | _ => Except.error PyErr.valueError

/-- One effect line of an operator (lines 197-206). -/
def readEffectLine (line : String) :
    Except PyErr (Int × Int × Int × List (Int × Int)) := do
  let effectLine ← (pySplitSpace line).mapM pyInt
  let numConds ← pyIndex effectLine 0
  let cond ← readConds effectLine 1 (toNatC numConds)
  let (v, pre, post) ← lastThree effectLine
  Except.ok (v, pre, post, cond)

/-- `_read_operators` (lines 185-210).  The operator name read from the
file is wrapped in parentheses. -/
def _read_operators (ls : List String) (n : Nat) :
    Except PyErr (List SASOperator × List String) := do
  let rec goPairs (ls : List String) (acc : List (Int × Int)) :
      Nat → Except PyErr (List (Int × Int) × List String)
    | 0 => Except.ok (acc, ls)
    | k + 1 => do
      let (l, ls) ← pyNext ls
      let p ← pyIntPair l
      goPairs ls (acc ++ [p]) k
  let rec goEffects (ls : List String)
      (acc : List (Int × Int × Int × List (Int × Int))) :
      Nat → Except PyErr (List (Int × Int × Int × List (Int × Int)) × List String)
    | 0 => Except.ok (acc, ls)
    | k + 1 => do
      let (l, ls) ← pyNext ls
      let e ← readEffectLine l
      goEffects ls (acc ++ [e]) k
  let rec go (ls : List String) (acc : List SASOperator) :
      Nat → Except PyErr (List SASOperator × List String)
    | 0 => Except.ok (acc, ls)
    | k + 1 => do
      let (l, ls) ← pyNext ls
      let _ ← pyAssert (l = "begin_operator")
      let (l, ls) ← pyNext ls
      let name := "(" ++ l ++ ")"
      let (l, ls) ← pyNext ls
      let numPrevail ← pyInt l
      let (prevail, ls) ← goPairs ls [] (toNatC numPrevail)
      let (l, ls) ← pyNext ls
      let numEffects ← pyInt l
      let (prePost, ls) ← goEffects ls [] (toNatC numEffects)
      let (l, ls) ← pyNext ls
      let cost ← pyInt l
      let (l, ls) ← pyNext ls
      let _ ← pyAssert (l = "end_operator")
      go ls (acc ++ [SASOperator.mk name prevail prePost cost]) k
  go ls [] n

/-- `_read_axioms` (lines 213-229): the effect line carries
`var old new`, and the reader asserts `1 - new == old`. -/
def _read_axioms (ls : List String) (n : Nat) :
    Except PyErr (List SASRule × List String) := do
  let rec goPairs (ls : List String) (acc : List (Int × Int)) :
      Nat → Except PyErr (List (Int × Int) × List String)
    | 0 => Except.ok (acc, ls)
    | k + 1 => do
      let (l, ls) ← pyNext ls
      let p ← pyIntPair l
      goPairs ls (acc ++ [p]) k
  let rec go (ls : List String) (acc : List SASRule) :
      Nat → Except PyErr (List SASRule × List String)
    | 0 => Except.ok (acc, ls)
    | k + 1 => do
      let (l, ls) ← pyNext ls
      let _ ← pyAssert (l = "begin_rule")
      let (l, ls) ← pyNext ls
      let lengthBody ← pyInt l
      let (condition, ls) ← goPairs ls [] (toNatC lengthBody)
      let (l, ls) ← pyNext ls
      let effectLine ← (pySplitSpace l).mapM pyInt
      let v ← pyIndex effectLine 0
      let val ← pyIndex effectLine 2
      let old ← pyIndex effectLine 1
      let _ ← pyAssert (1 - val = old)
      let (l, ls) ← pyNext ls
      let _ ← pyAssert (l = "end_rule")
      go ls (acc ++ [SASRule.mk condition (v, val)]) k
  go ls [] n

/-- Modelled from the spec: `SASTask.validate()` lives in
machetli/sas/sas_tasks.py, which is not part of the given sources; the
spec's §3 invariants are used instead: every referenced `(var, val)` pair
is legal, `init` assigns every variable a legal value, the goal is
non-empty, axiom heads are layered binary variables, and effect `pre`
values are `-1` or legal. -/
def legalPair (t : SASTask) (p : Int × Int) : Bool :=
  decide (0 ≤ p.1) && decide (p.1 < (t.vars.ranges.length : Int)) &&
    decide (0 ≤ p.2) &&
    (match t.vars.ranges.get? p.1.toNat with
     | some r => decide (p.2 < r)
     | none => false)

/-- Modelled from the spec: the §3 data-model invariants checked by
`SASTask.validate()` (machetli/sas/sas_tasks.py is not in the sources). -/
def validate (t : SASTask) : Bool :=
  t.vars.axiom_layers.length = t.vars.ranges.length &&
  t.vars.value_names.length = t.vars.ranges.length &&
  (List.range t.vars.ranges.length).all (fun i =>
    match t.vars.ranges.get? i, t.vars.value_names.get? i with
    | some r, some ns => (ns.length : Int) = r
    | _, _ => false) &&
  t.mutexes.all (fun m => m.facts.all (legalPair t)) &&
  t.init.values.length = t.vars.ranges.length &&
  (List.range t.init.values.length).all (fun i =>
    match t.init.values.get? i with
    | some v => legalPair t ((i : Int), v)
    | none => false) &&
  !t.goal.pairs.isEmpty &&
  t.goal.pairs.all (legalPair t) &&
  t.operators.all (fun op =>
    op.prevail.all (legalPair t) &&
    op.pre_post.all (fun e =>
      legalPair t (e.1, e.2.2.1) &&
      (e.2.1 = -1 || legalPair t (e.1, e.2.1)) &&
      e.2.2.2.all (legalPair t)) &&
    0 ≤ op.cost) &&
  t.axioms.all (fun ax =>
    ax.condition.all (legalPair t) &&
    legalPair t ax.effect &&
    (match t.vars.axiom_layers.get? ax.effect.1.toNat,
           t.vars.ranges.get? ax.effect.1.toNat with
     | some layer, some r => 0 ≤ layer && r = 2
     | _, _ => false))

/-- `_read_task` (src/machetli/sas/files.py lines 102-129).  Note line 108:
`metric = bool(next(lines))` applies Python truthiness to the metric
*string*, so any non-empty line — including `"0"` — yields `True`. -/
def _read_task (ls : List String) : Except PyErr SASTask := do
  let ls ← skipToMetric ls
  let (l, ls) ← pyNext ls
  let metric := l ≠ ""
  let (l, ls) ← pyNext ls
  let _ ← pyAssert (l = "end_metric")
  let (l, ls) ← pyNext ls
  let numVars ← pyInt l
  let (vars, ls) ← _read_variables ls (toNatC numVars)
  let (l, ls) ← pyNext ls
  let numMutexes ← pyInt l
  let (mutexes, ls) ← _read_mutexes ls (toNatC numMutexes)
  let (init, ls) ← _read_init_state ls (toNatC numVars)
  let (goal, ls) ← _read_goal ls
  let (l, ls) ← pyNext ls
  let numOperators ← pyInt l
  let (operators, ls) ← _read_operators ls (toNatC numOperators)
  let (l, ls) ← pyNext ls
  let numAxioms ← pyInt l
  let (axioms, _) ← _read_axioms ls (toNatC numAxioms)
  let task := SASTask.mk vars mutexes init goal operators axioms metric
  let _ ← if validate task then Except.ok () else Except.error PyErr.validationError
  Except.ok task

/-! ## The SAS writer -/

/-- Decimal digit character for `d < 10` (used by the writer and by
`renamed_sas` for the variable index in a value name). -/
def digChar (d : Nat) : Char :=
  match d with
  | 0 => '0' | 1 => '1' | 2 => '2' | 3 => '3' | 4 => '4'
  | 5 => '5' | 6 => '6' | 7 => '7' | 8 => '8' | 9 => '9'
  | _ => '*'

/-- Reversed decimal digits of `n`; the first argument is fuel, always
called with fuel `> n` so the recursion is structural. -/
def natDigitsRev : Nat → Nat → List Char
  | 0, _ => []
  | f + 1, n => if n < 10 then [digChar n] else digChar (n % 10) :: natDigitsRev f (n / 10)

/-- Decimal rendering of a natural number (Python `str(n)`). -/
def natToStr (n : Nat) : String :=
  String.mk (natDigitsRev (n + 1) n).reverse

/-- Decimal rendering of an integer (Python `str(i)`). -/
def intToStr (i : Int) : String :=
  if i < 0 then "-" ++ natToStr (-i).toNat else natToStr i.toNat

/-- A line of space-separated integers. -/
def intsLine (l : List Int) : String :=
  String.intercalate " " (l.map intToStr)

/-- The stored operator name without its surrounding parentheses
(`SASOperator` names are stored as `"(name)"`; the writer emits the bare
name and the reader re-wraps it). -/
def stripParens (s : String) : String :=
  String.mk ((s.toList.drop 1).dropLast)

/-- Modelled from the spec: `SASTask.output` lives in
machetli/sas/sas_tasks.py, which is not part of the given sources.  The
lines follow the grounded-task file format of §6 exactly: the metric flag
is written as `0`/`1`, operator names are written without their
parentheses, and the axiom effect line carries `var (1 - new) new`.  The
skipped variable-name line is written as `var` followed by the variable
index. -/
def output (t : SASTask) : List String :=
  ["begin_metric", if t.metric then "1" else "0", "end_metric",
   natToStr t.vars.ranges.length] ++
  ((List.range t.vars.ranges.length).flatMap (fun i =>
    ["begin_variable", "var" ++ natToStr i,
     intToStr (t.vars.axiom_layers.getD i 0),
     intToStr (t.vars.ranges.getD i 0)] ++
    t.vars.value_names.getD i [] ++ ["end_variable"])) ++
  [natToStr t.mutexes.length] ++
  (t.mutexes.flatMap (fun m =>
    ["begin_mutex_group", natToStr m.facts.length] ++
    m.facts.map (fun p => intsLine [p.1, p.2]) ++ ["end_mutex_group"])) ++
  ["begin_state"] ++ t.init.values.map intToStr ++ ["end_state"] ++
  ["begin_goal", natToStr t.goal.pairs.length] ++
  t.goal.pairs.map (fun p => intsLine [p.1, p.2]) ++ ["end_goal"] ++
  [natToStr t.operators.length] ++
  (t.operators.flatMap (fun op =>
    ["begin_operator", stripParens op.name, natToStr op.prevail.length] ++
    op.prevail.map (fun p => intsLine [p.1, p.2]) ++
    [natToStr op.pre_post.length] ++
    op.pre_post.map (fun e =>
      intsLine ((e.2.2.2.length : Int) ::
        e.2.2.2.flatMap (fun c => [c.1, c.2]) ++ [e.1, e.2.1, e.2.2.1])) ++
    [intToStr op.cost, "end_operator"])) ++
  [natToStr t.axioms.length] ++
  (t.axioms.flatMap (fun ax =>
    ["begin_rule", natToStr ax.condition.length] ++
    ax.condition.map (fun p => intsLine [p.1, p.2]) ++
    [intsLine [ax.effect.1, 1 - ax.effect.2, ax.effect.2], "end_rule"]))

/-! ## `renamed_sas` (src/machetli/sas/files.py 240-258) -/

/-- The 26-letter alphabet of `renamed_sas`. -/
def alphabet : List Char := "abcdefghijklmnopqrstuvwxyz".toList

/-- Python list item assignment `l[i] = a`: `IndexError` when `i` is out
of range. -/
def pySet {α : Type} (l : List α) (i : Nat) (a : α) : Except PyErr (List α) :=
  if i < l.length then Except.ok (l.set i a) else Except.error PyErr.indexError

/-- The new name of value `j` of variable `i`:
`f"{alphabet[j].upper()}{i}"`; `IndexError` when `j ≥ 26`. -/
def renamedValueName (i j : Nat) : Except PyErr String := do
  let c ← pyIndex alphabet j
  Except.ok (String.mk [c.toUpper] ++ natToStr i)

/-- The inner `for j in range(size):` loop of `renamed_sas`, writing
`value_names[i][j]` for each listed `j`. -/
def renameRowLoop (names : List (List String)) (i : Nat) :
    List Nat → Except PyErr (List (List String))
  | [] => Except.ok names
  | j :: js => do
    let newName ← renamedValueName i j
    let row ← pyIndex names i
    let row2 ← pySet row j newName
    let names2 ← pySet names i row2
    renameRowLoop names2 i js

/-- The outer `for i, size in enumerate(new_task.variables.ranges):` loop of
`renamed_sas`. -/
def renameVarsLoop (names : List (List String)) :
    List (Nat × Int) → Except PyErr (List (List String))
  | [] => Except.ok names
  | (i, size) :: rest => do
    let names2 ← renameRowLoop names i
      (List.range (toNatC size))
    renameVarsLoop names2 rest

/-- The `for i in range(len(sas_task.operators)):` loop of `renamed_sas`:
`new_task.operators[i].name = f"({alphabet[i]})"`. -/
def renameOpsLoop (ops : List SASOperator) :
    List Nat → Except PyErr (List SASOperator)
  | [] => Except.ok ops
  | i :: is_ => do
    let c ← pyIndex alphabet i
    let op ← pyIndex ops i
    let ops2 ← pySet ops i { op with name := "(" ++ String.mk [c] ++ ")" }
    renameOpsLoop ops2 is_

/-- `renamed_sas` (src/machetli/sas/files.py lines 240-258): deep-copies
the task, renames value names to `"<Upper(letter_j)><i>"` and operator
names to `"(<letter_i>)"`; an alphabet index `≥ 26` raises `IndexError`. -/
def renamed_sas (t : SASTask) : Except PyErr SASTask := do
  let names ← renameVarsLoop t.vars.value_names t.vars.ranges.enum
  let ops ← renameOpsLoop t.operators (List.range t.operators.length)
  Except.ok { t with vars := { t.vars with value_names := names }, operators := ops }

/-! ## Domain discovery and the PDDL shim (src/machetli/pddl/files.py) -/

/-- `os.path.split`: split at the last `/` (our paths contain no trailing
slash). -/
def splitPath (s : String) : String × String :=
  let cs := s.toList
  match (cs.reverse.takeWhile (fun c => c ≠ '/')).reverse with
  | b =>
    let d := cs.take (cs.length - b.length - 1)
    (String.mk d, String.mk b)

/-- `os.path.splitext` on a basename: split at the last dot, where leading
dots do not count as an extension separator. -/
def splitExt (s : String) : String × String :=
  let cs := s.toList
  let lead := cs.takeWhile (fun c => c = '.')
  let rest := cs.drop lead.length
  let extLen := (rest.reverse.takeWhile (fun c => c ≠ '.')).length
  if extLen < rest.length then
    (String.mk (cs.take (cs.length - extLen - 1)),
     String.mk (cs.drop (cs.length - extLen - 1)))
  else (s, "")

/-- `os.path.join(dir, base)` for the shapes produced by `os.path.split`. -/
def joinPath (d b : String) : String :=
  if d = "" then b
  else if d.toList.getLast? = some '/' then d ++ b
  else d ++ "/" ++ b

/-- The candidate basenames of `_find_domain_filename`
(src/machetli/pddl/files.py lines 27-33), in order. -/
def domain_basenames (task_filename : String) : List String :=
  let (_, basename) := splitPath task_filename
  let (basename_root, ext) := splitExt basename
  ["domain.pddl",
   basename_root ++ "-domain" ++ ext,
   String.mk (basename.toList.take 3) ++ "-domain.pddl",
   "domain_" ++ basename,
   "domain-" ++ basename]

/-- `_find_domain_filename` (src/machetli/pddl/files.py lines 20-41): the
first candidate that exists on the filesystem `fs`; when none exists the
function only logs critically and returns `None` — it does not exit. -/
def _find_domain_filename (fs : List String) (task_filename : String) :
    Option String :=
  let dirname := (splitPath task_filename).1
  (domain_basenames task_filename).map (joinPath dirname) |>.find? (fun c => fs.contains c)

/-- Modelled from the spec: the evaluator exit codes of §6
(machetli/evaluator.py is not part of the given sources):
30 behavior present / improving, 31 not present, 32 critical. -/
def EXIT_CODE_BEHAVIOR_PRESENT : Nat := 30

/-- Modelled from the spec: §6 exit code for behavior not present. -/
def EXIT_CODE_BEHAVIOR_NOT_PRESENT : Nat := 31

/-- Modelled from the spec: §6 exit code for a critical error. -/
def EXIT_CODE_CRITICAL : Nat := 32

/-- What the PDDL shim does next in the single-filename fallback branch of
`run_evaluator` (src/machetli/pddl/files.py lines 123-127), after state
unpickling failed: call the user evaluator, or exit. -/
inductive ShimAction where
  | evaluateOn (domain : Option String) (task : String)
  | exitWith (code : Nat)
deriving DecidableEq

/-- The `except (FileNotFoundError, PickleError):` branch of the PDDL
`run_evaluator` for a single filename (src/machetli/pddl/files.py lines
123-127): look up the domain with `_find_domain_filename` and call the
evaluator on the result — even when the lookup returned `None`. -/
def run_evaluator_fallback (fs : List String) (task_filename : String) :
    ShimAction :=
  ShimAction.evaluateOn (_find_domain_filename fs task_filename) task_filename

/-! ## Temporary-file scopes (src/machetli/sas/files.py 34-54 and
src/machetli/pddl/files.py 56-82) -/

/-- How the body of a `with` block terminates: normally, via `sys.exit`
(a `SystemExit` exception), or via any other exception. -/
inductive BodyExit where
  | normal
  | sysExit (code : Nat)
  | raised
deriving DecidableEq

/-- `contextlib.contextmanager` exit protocol for a generator whose code
after the `yield` may or may not be protected by `try`/`finally`: on
normal body completion the generator is resumed and the cleanup after the
`yield` runs; when the body raises (including `SystemExit` from
`sys.exit`), the exception is thrown into the generator at the `yield`
and the cleanup runs only if the `yield` sits inside `try`/`finally`. -/
def cleanupRuns (protectedCleanup : Bool) (body : BodyExit) : Bool :=
  match body with
  | BodyExit.normal => true
  | _ => protectedCleanup

/-- Whether `temporary_file` (src/machetli/sas/files.py lines 34-54)
unlinks its file: the `os.remove` after the `yield` is not inside
`try`/`finally`. -/
def sas_temporary_file_removes (body : BodyExit) : Bool :=
  cleanupRuns false body

/-- Whether `temporary_files` (src/machetli/pddl/files.py lines 56-82)
unlinks its two files: the `os.remove` calls after the `yield` are not
inside `try`/`finally`. -/
def pddl_temporary_files_removes (body : BodyExit) : Bool :=
  cleanupRuns false body

/-- `_run_evaluator_on_sas_file` (src/machetli/sas/files.py lines 57-61):
the body run inside the `temporary_file` scope always exits via
`sys.exit` with the present/not-present code. -/
def sasEvaluatorBody (result : Bool) : BodyExit :=
  BodyExit.sysExit
    (if result then EXIT_CODE_BEHAVIOR_PRESENT else EXIT_CODE_BEHAVIOR_NOT_PRESENT)

/-! ## Concrete fixtures -/

/-- The minimal grounded task of the spec's end-to-end scenario 1: one
binary variable (axiom layer −1, values `a`, `b`), no mutex groups,
`init = [0]`, `goal = [(0, 1)]`, one operator `(op)` with a single
unconditional effect and cost 1, no axioms, metric on. -/
def sasMinimal : SASTask :=
  { vars := { ranges := [2], axiom_layers := [-1], value_names := [["a", "b"]] },
    mutexes := [],
    init := SASInit.mk [0],
    goal := SASGoal.mk [(0, 1)],
    operators := [SASOperator.mk "(op)" [] [(0, 0, 1, [])] 1],
    axioms := [],
    metric := true }

/-- The same task with the metric flag off (`use_action_costs = 0`). -/
def sasMinimalNoCosts : SASTask :=
  { sasMinimal with metric := false }

/-- Remove line `i` from a line list. -/
def dropLine (ls : List String) (i : Nat) : List String :=
  ls.take i ++ ls.drop (i + 1)

/-- Swap lines `i` and `i + 1` of a line list. -/
def swapAdjacent (ls : List String) (i : Nat) : List String :=
  match ls.get? i, ls.get? (i + 1) with
  | some a, some b => (ls.set i b).set (i + 1) a
  | _, _ => ls

/-- Whether a line is one of the section delimiters of the grounded
format. -/
def isDelimLine (s : String) : Bool :=
  "begin_".toList.isPrefixOf s.toList || "end_".toList.isPrefixOf s.toList

/-- Add `d` to the integer on line `i` (used to perturb the section
counts of a grounded file). -/
def bumpCount (ls : List String) (i : Nat) (d : Int) : List String :=
  ls.set i (intToStr ((match pyInt (ls.getD i "") with
    | Except.ok v => v
    | Except.error _ => 0) + d))

/-- The indices of the count lines in `output sasMinimal`
(variable count, mutex-group count, goal-pair count, operator count,
prevail count, effect count, axiom count). -/
def countIndices : List Nat := [3, 11, 16, 19, 22, 23, 27]

/-- The count lines of `output sasMinimal` holding a positive count. -/
def posCountIndices : List Nat := [3, 16, 19, 23]

/-- A completed evaluation task over `Nat` states, for concrete batches:
`sampleTask id state status` with distinguishable message fields. -/
def sampleTask (id : Nat) (st : Nat) (s : Status) : EvalTask Nat :=
  { successor_id := id, state := st,
    change_msg := "change" ++ natToStr id,
    run_dir := "run" ++ natToStr id,
    error_msg := "error" ++ natToStr id,
    status := s }

/-- The spec's eager-vs-deterministic divergence batch: statuses
`OutOfResources, BehaviorNotPresent, BehaviorPresent` in submission
order. -/
def divergenceBatch : List (EvalTask Nat) :=
  [sampleTask 0 10 Status.outOfResources,
   sampleTask 1 11 Status.doneNotPresent,
   sampleTask 2 12 Status.donePresent]

/-- A batch with an out-of-resources peer and a critical peer before a
behavior-present task. -/
def eagerBatch : List (EvalTask Nat) :=
  [sampleTask 0 20 Status.outOfResources,
   sampleTask 1 21 Status.critical,
   sampleTask 2 22 Status.donePresent]

/-- A batch in which the behavior-present task at position 0 cancelled
its peer at position 1. -/
def canceledBatch : List (EvalTask Nat) :=
  [sampleTask 0 30 Status.donePresent,
   sampleTask 1 31 Status.canceled]

/-- The alphabet letter at an in-range index. -/
def letterAt (j : Nat) : Char := alphabet.getD j 'a'

/-- The pure value of `f"{alphabet[j].upper()}{i}"` for an in-range `j`. -/
def expectedValueName (i j : Nat) : String :=
  String.mk [(letterAt j).toUpper] ++ natToStr i

/-- The net effect of the item assignments `value_names[i][j] = …`
performed by the inner rename loop for the listed `j`, as a fold. -/
def applySets (i : Nat) (row : List String) (js : List Nat) : List String :=
  js.foldl (fun r j => r.set j (expectedValueName i j)) row

/-- A batch as the deterministic driver's assumptions describe it: a task
can only be `Canceled` if some earlier task in the reported order
completed with a status other than `BehaviorNotPresent` (the ids the
cancellation callback returns are exactly those above such a task). -/
def BatchWF {σ : Type} (b : List (EvalTask σ)) : Prop :=
  ∀ j tj, b.get? j = some tj → tj.status = Status.canceled →
    ∃ i ti, i < j ∧ b.get? i = some ti ∧ ti.status ≠ Status.doneNotPresent

/-! # Theorems -/

/-- In deterministic mode, a `found` verdict comes from a
`BehaviorPresent` task all of whose predecessors in the reported order
were `BehaviorNotPresent`. -/
theorem processTasks_det_found {σ : Type} (oor : List (EvalTask σ))
    (b : List (EvalTask σ)) :
    ∀ (s : σ) (m : String),
      processTasks true oor b = BatchStep.found s m →
      ∃ j tj, b.get? j = some tj ∧ tj.status = Status.donePresent ∧
        s = tj.state ∧ m = tj.change_msg ∧
        ∀ k u, k < j → b.get? k = some u → u.status = Status.doneNotPresent := by
  induction b with
  | nil => intro s m h; simp [processTasks] at h
  | cons t ts ih =>
    intro s m h
    cases hst : t.status with
    | doneNotPresent =>
      have h2 : processTasks true oor ts = BatchStep.found s m := by
        simpa [processTasks, hst] using h
      obtain ⟨j, tj, hj, hstat, hs, hm, hpre⟩ := ih s m h2
      refine ⟨j + 1, tj, by simpa using hj, hstat, hs, hm, ?_⟩
      intro k u hk hku
      cases k with
      | zero =>
        have : t = u := by simpa using hku
        rw [← this]; exact hst
      | succ k2 =>
        exact hpre k2 u (by omega) (by simpa using hku)
    | donePresent =>
      have h2 : BatchStep.found t.state t.change_msg = BatchStep.found s m := by
        simpa [processTasks, hst] using h
      injection h2 with hs hm
      exact ⟨0, t, rfl, hst, hs.symm, hm.symm, fun k u hk _ => absurd hk k.not_lt_zero⟩
    | outOfResources => simp [processTasks, hst] at h
    | critical => simp [processTasks, hst] at h
    | canceled => simp [processTasks, hst] at h

/-- In deterministic mode, when the first task in reported order whose
status is not `BehaviorNotPresent` ran out of resources or failed
critically, the verdict loop aborts with that task's error message and
the mode-specific note. -/
theorem processTasks_det_abort {σ : Type} (oor : List (EvalTask σ))
    (b : List (EvalTask σ)) :
    ∀ (i : Nat) (ti : EvalTask σ),
      b.get? i = some ti →
      (ti.status = Status.outOfResources ∨ ti.status = Status.critical) →
      (∀ k u, k < i → b.get? k = some u → u.status = Status.doneNotPresent) →
      processTasks true oor b =
        BatchStep.abort (ti.error_msg ++
          (if ti.status = Status.outOfResources then oorDetNote else critDetNote)) := by
  induction b with
  | nil => intro i ti hi _ _; simp at hi
  | cons t ts ih =>
    intro i ti hi hs hpre
    cases i with
    | zero =>
      have ht : t = ti := by simpa using hi
      subst ht
      rcases hs with h1 | h1 <;> simp [processTasks, h1]
    | succ i2 =>
      have h0 : t.status = Status.doneNotPresent :=
        hpre 0 t (Nat.succ_pos i2) rfl
      have h2 := ih i2 ti (by simpa using hi) hs
        (fun k u hk hku => hpre (k + 1) u (by omega) (by simpa using hku))
      simpa [processTasks, h0] using h2

/-- In eager mode, the verdict loop returns the payload of the first
`BehaviorPresent` task in reported order, whatever the non-present
statuses of the earlier tasks were. -/
theorem processTasks_eager_found {σ : Type} (b : List (EvalTask σ)) :
    ∀ (oor : List (EvalTask σ)) (j : Nat) (tj : EvalTask σ),
      b.get? j = some tj → tj.status = Status.donePresent →
      (∀ k u, k < j → b.get? k = some u → u.status ≠ Status.donePresent) →
      processTasks false oor b = BatchStep.found tj.state tj.change_msg := by
  induction b with
  | nil => intro oor j tj hj _ _; simp at hj
  | cons t ts ih =>
    intro oor j tj hj hstat hpre
    cases j with
    | zero =>
      have ht : t = tj := by simpa using hj
      subst ht
      simp [processTasks, hstat]
    | succ j2 =>
      have hj2 : ts.get? j2 = some tj := by simpa using hj
      have hpre2 : ∀ k u, k < j2 → ts.get? k = some u →
          u.status ≠ Status.donePresent :=
        fun k u hk hku => hpre (k + 1) u (by omega) (by simpa using hku)
      have h0 : t.status ≠ Status.donePresent := hpre 0 t (Nat.succ_pos j2) rfl
      cases hst : t.status with
      | donePresent => exact absurd hst h0
      | doneNotPresent => simpa [processTasks, hst] using ih oor j2 tj hj2 hstat hpre2
      | outOfResources => simpa [processTasks, hst] using ih (oor ++ [t]) j2 tj hj2 hstat hpre2
      | critical => simpa [processTasks, hst] using ih oor j2 tj hj2 hstat hpre2
      | canceled => simpa [processTasks, hst] using ih oor j2 tj hj2 hstat hpre2

/-- Under the deterministic-mode assumptions, the verdict loop never
reaches the `CANCELED` branch whose `assert not deterministic` would
fail. -/
theorem processTasks_det_no_assertFail {σ : Type} (b : List (EvalTask σ)) :
    ∀ (oor : List (EvalTask σ)), BatchWF b →
      processTasks true oor b ≠ BatchStep.assertFail := by
  induction b with
  | nil => intro oor _; simp [processTasks]
  | cons t ts ih =>
    intro oor hwf
    cases hst : t.status with
    | doneNotPresent =>
      have hwf2 : BatchWF ts := by
        intro j tj hj hc
        obtain ⟨i, ti, hlt, hi, hne⟩ := hwf (j + 1) tj (by simpa using hj) hc
        cases i with
        | zero =>
          have : t = ti := by simpa using hi
          exact absurd (this ▸ hst) hne
        | succ i2 =>
          exact ⟨i2, ti, by omega, by simpa using hi, hne⟩
      simpa [processTasks, hst] using ih oor hwf2
    | donePresent => simp [processTasks, hst]
    | outOfResources => simp [processTasks, hst]
    | critical => simp [processTasks, hst]
    | canceled =>
      obtain ⟨i, ti, hlt, _, _⟩ := hwf 0 t rfl hst
      exact absurd hlt i.not_lt_zero

/-- Batch-loop version of `processTasks_det_no_assertFail`. -/
theorem gisGo_det_no_assert {σ : Type} (bs : List (List (EvalTask σ))) :
    ∀ (oor : List (EvalTask σ)), (∀ b ∈ bs, BatchWF b) →
      gisGo true oor bs ≠ GsOutcome.assertionFailure := by
  induction bs with
  | nil => intro oor _; simp [gisGo]
  | cons b bs ih =>
    intro oor hwf
    have hb : BatchWF b := hwf b (List.mem_cons_self b bs)
    cases hp : processTasks true oor b with
    | found s m => simp [gisGo, hp]
    | abort m => simp [gisGo, hp]
    | assertFail => exact absurd hp (processTasks_det_no_assertFail b oor hb)
    | next oor2 =>
      simpa [gisGo, hp] using
        ih oor2 (fun c hc => hwf c (List.mem_cons_of_mem b hc))

/-- C1: the claim states that reading back the byte stream produced by
writing a grounded task yields an equal task, the metric flag surviving
for both values 0 and 1.  The code violates this: line 108 of
src/machetli/sas/files.py computes `metric = bool(next(lines))`, and in
Python the truthiness of the non-empty string `"0"` is `True`, so a task
written with metric off reads back with metric on.  This theorem
evaluates the codec at the spec's own minimal task: with the metric flag
off, the read-back task differs from the written one exactly in the
metric field; with the flag on, the round trip is exact.  The writer is a
pure function of the task, so its determinism holds by construction. -/
theorem C1_metric_roundtrip_bug :
    sasMinimalNoCosts.metric = false ∧
    _read_task (output sasMinimalNoCosts) =
      Except.ok { sasMinimalNoCosts with metric := true } ∧
    _read_task (output sasMinimalNoCosts) ≠ Except.ok sasMinimalNoCosts ∧
    _read_task (output sasMinimal) = Except.ok sasMinimal := by
  refine ⟨rfl, by decide, by decide, by decide⟩

/-- C2: in deterministic mode (tasks reported in `successor_id` order,
so position `k` holds the task with id `k`), if the task at position `i`
terminated with `OutOfResources` or `Critical`, then (a) any improving
successor the driver accepts comes from a `BehaviorPresent` task at a
position strictly before `i` — never from a position after it — and
(b) when every task before `i` was `BehaviorNotPresent`,
`_get_improving_successor` returns no improving state together with the
task's error message and the deterministic-mode note. -/
theorem C2_deterministic_no_late_acceptance {σ : Type}
    (b : List (EvalTask σ)) (i : Nat) (ti : EvalTask σ)
    (hpos : ∀ k u, b.get? k = some u → u.successor_id = k)
    (hi : b.get? i = some ti)
    (hs : ti.status = Status.outOfResources ∨ ti.status = Status.critical) :
    (∀ s m, get_improving_successor true [b] = GsOutcome.improver s m →
      ∃ j tj, j < i ∧ b.get? j = some tj ∧ tj.status = Status.donePresent ∧
        s = tj.state ∧ m = tj.change_msg) ∧
    ((∀ k u, k < i → b.get? k = some u → u.status = Status.doneNotPresent) →
      get_improving_successor true [b] =
        GsOutcome.noImprover (ti.error_msg ++
          (if ti.status = Status.outOfResources then oorDetNote
           else critDetNote))) := by
  constructor
  · intro s m h
    have hfound : processTasks true [] b = BatchStep.found s m := by
      cases hp : processTasks true [] b with
      | found s2 m2 =>
        have : GsOutcome.improver s2 m2 = GsOutcome.improver s m := by
          simpa [get_improving_successor, gisGo, hp] using h
        injection this with h1 h2
        rw [h1, h2]
      | abort m2 => simp [get_improving_successor, gisGo, hp] at h
      | assertFail => simp [get_improving_successor, gisGo, hp] at h
      | next oor2 => simp [get_improving_successor, gisGo, hp, noImproverMessage] at h
    obtain ⟨j, tj, hj, hstat, hsm, hm, hpre⟩ :=
      processTasks_det_found [] b s m hfound
    rcases Nat.lt_trichotomy j i with hlt | heq | hgt
    · exact ⟨j, tj, hlt, hj, hstat, hsm, hm⟩
    · subst heq
      rw [hj] at hi
      have : tj = ti := by injection hi
      subst this
      rcases hs with h1 | h1 <;> rw [hstat] at h1 <;> exact Status.noConfusion h1
    · have := hpre i ti hgt hi
      rcases hs with h1 | h1 <;> rw [this] at h1 <;> exact Status.noConfusion h1
  · intro hpre
    have habort := processTasks_det_abort [] b i ti hi hs hpre
    simp [get_improving_successor, gisGo, habort]

/-- C2 witness: the spec's divergence example — a batch with statuses
`OutOfResources, BehaviorNotPresent, BehaviorPresent` in submission
order — yields, in deterministic mode, no improving successor and the
out-of-resources error message, even though a later peer reported the
behavior present. -/
theorem C2_witness :
    get_improving_successor true [divergenceBatch] =
      GsOutcome.noImprover ("error0" ++ oorDetNote) := by
  have hpos : ∀ k u, divergenceBatch.get? k = some u → u.successor_id = k := by
    intro k u hku
    rcases k with _ | _ | _ | k
    · cases hku; rfl
    · cases hku; rfl
    · cases hku; rfl
    · exact Option.noConfusion hku
  have h := (C2_deterministic_no_late_acceptance divergenceBatch 0
      (sampleTask 0 10 Status.outOfResources) hpos rfl
      (Or.inl rfl)).2
    (fun k u hk _ => absurd hk k.not_lt_zero)
  exact h.trans (by decide)

/-- C3: in eager mode, the first task reported with `BehaviorPresent`
(position `j`; every earlier reported task has some other status — the
hypothesis admits `OutOfResources` and `Critical` peers, which are
recorded but not fatal) is returned as the improving successor with its
state and change message, and the completion callback on that task
requests cancellation of every task id of the batch. -/
theorem C3_eager_first_present {σ : Type}
    (b : List (EvalTask σ)) (j : Nat) (tj : EvalTask σ)
    (hj : b.get? j = some tj) (hstat : tj.status = Status.donePresent)
    (hpre : ∀ k u, k < j → b.get? k = some u →
      u.status ≠ Status.donePresent) :
    get_improving_successor false [b] =
      GsOutcome.improver tj.state tj.change_msg ∧
    on_task_completed false (List.range b.length) tj =
      some (List.range b.length) := by
  constructor
  · have hfound := processTasks_eager_found b [] j tj hj hstat hpre
    simp [get_improving_successor, gisGo, hfound]
  · simp [on_task_completed, hstat]

/-- C3 witness: with peers `OutOfResources` and `Critical` reported
before a `BehaviorPresent` task, the eager driver still returns the
present task's state and change message, and the callback on it cancels
all three batch ids. -/
theorem C3_witness :
    get_improving_successor false [eagerBatch] =
      GsOutcome.improver 22 "change2" ∧
    on_task_completed false (List.range eagerBatch.length)
      (sampleTask 2 22 Status.donePresent) = some [0, 1, 2] := by
  have hpre : ∀ k u, k < 2 → eagerBatch.get? k = some u →
      u.status ≠ Status.donePresent := by
    intro k u hk hku
    rcases k with _ | _ | k
    · cases hku; decide
    · cases hku; decide
    · omega
  have h := C3_eager_first_present eagerBatch 2
    (sampleTask 2 22 Status.donePresent) rfl rfl hpre
  exact ⟨h.1.trans (by decide), h.2.trans (by decide)⟩

/-- C10: in deterministic mode, assuming each batch is reported in
`successor_id` order and a task can only be `Canceled` when some earlier
task completed with a status other than `BehaviorNotPresent` (which is
exactly what the deterministic cancellation callback returns ids for),
the `CANCELED` branch of the verdict loop is unreachable: its
`assert not deterministic` never fails, because the loop returns at the
first non-`BehaviorNotPresent` task, which sits before any canceled
one. -/
theorem C10_canceled_branch_unreachable {σ : Type}
    (batches : List (List (EvalTask σ)))
    (hwf : ∀ b ∈ batches, BatchWF b) :
    get_improving_successor true batches ≠ GsOutcome.assertionFailure :=
  gisGo_det_no_assert batches [] hwf

/-- C10 witness: a deterministic batch whose position-0 task is
`BehaviorPresent` and whose position-1 task was cancelled because of it
satisfies the well-formedness assumption, and the driver does not hit
the assertion. -/
theorem C10_witness :
    get_improving_successor true [canceledBatch] ≠
      GsOutcome.assertionFailure := by
  have hwf : ∀ b ∈ [canceledBatch], BatchWF b := by
    intro b hb
    have hb2 : b = canceledBatch := by simpa using hb
    subst hb2
    intro j tj hj hc
    rcases j with _ | _ | j
    · cases hj; exact absurd hc (by decide)
    · exact ⟨0, sampleTask 0 30 Status.donePresent, by omega, rfl, by decide⟩
    · exact Option.noConfusion hj
  exact C10_canceled_branch_unreachable [canceledBatch] hwf

/-- C4 counterexample: the claim states that an observed `Canceled`
status during the initial-state check is treated as a programming error.
In the code (src/machetli/search.py lines 116-117) the `CANCELED` branch
only logs a warning and continues — it raises nothing, in either mode;
only a status outside the five-value enumeration would reach the
`Unexpected task status` branch. -/
theorem C4_canceled_counterexample :
    (checkInitialTask false Status.canceled).2 = none ∧
    (checkInitialTask true Status.canceled).2 = none ∧
    (checkInitialTask false Status.canceled).1 =
      [(LogLevel.warning,
        "Initial state evaluation was canceled. Cannot verify if it has the property.")] := by
  refine ⟨rfl, rfl, rfl⟩

/-- C4 (amended): the initial-state check fails (raises `ValueError`)
exactly on `BehaviorNotPresent`, and on `OutOfResources`/`Critical` when
deterministic; `BehaviorPresent` continues, and `Canceled` merely logs a
warning that the property cannot be verified and continues in both
modes. -/
theorem C4_initial_state_interpretation (deterministic : Bool) (s : Status) :
    ((checkInitialTask deterministic s).2.isSome ↔
      (s = Status.doneNotPresent ∨
        deterministic = true ∧ (s = Status.outOfResources ∨ s = Status.critical))) ∧
    (checkInitialTask deterministic Status.canceled).2 = none := by
  cases deterministic <;> cases s <;> decide

/-- C5 counterexample: the claim states that on a malformed input the
reader raises a `ParseError` value carrying the line, what was expected
and what was found.  The source has no such type: its delimiter checks
are bare `assert` statements, so dropping the `end_metric` line of a
well-formed file fails with a plain `AssertionError` carrying no
line/expected/found data (here: the payload-free `PyErr.assertionError`
constructor, the image of Python's `AssertionError`). -/
theorem C5_counterexample_plain_assert :
    _read_task (dropLine (output sasMinimal) 2) =
      Except.error PyErr.assertionError := by decide

/-- C5 (amended): on malformed inputs the reader does fail rather than
return a task, but with an undecorated `AssertionError`, `ValueError`,
`IndexError` or `StopIteration` instead of a structured `ParseError`:
dropping any single line of a well-formed file fails; swapping any
adjacent pair of lines involving a section delimiter fails; incrementing
any section count fails, and decrementing any positive section count
fails (a count lowered from 0 to −1 is read back as zero sections, not
rejected). -/
theorem C5_reader_rejects_malformed :
    ((List.range (output sasMinimal).length).all (fun i =>
      !(_read_task (dropLine (output sasMinimal) i)).isOk) = true) ∧
    ((List.range ((output sasMinimal).length - 1)).all (fun i =>
      !(isDelimLine ((output sasMinimal).getD i "") ||
          isDelimLine ((output sasMinimal).getD (i + 1) "")) ||
        !(_read_task (swapAdjacent (output sasMinimal) i)).isOk) = true) ∧
    (countIndices.all (fun i =>
      !(_read_task (bumpCount (output sasMinimal) i 1)).isOk) = true) ∧
    (posCountIndices.all (fun i =>
      !(_read_task (bumpCount (output sasMinimal) i (-1))).isOk) = true) ∧
    _read_task (bumpCount (output sasMinimal) 11 (-1)) =
      Except.ok sasMinimal := by
  refine ⟨by decide, by decide, by decide, by decide, by decide⟩

/-- C7: the claim states the five domain-file candidates are tried in the
documented order (which the first three conjuncts confirm on a concrete
task filename), and that the shim exits with the `Critical` exit code
when none exists.  The code violates the second part:
`_find_domain_filename` (src/machetli/pddl/files.py lines 40-41) only
calls `logging.critical` — which logs and returns — and then returns
`None`, so `run_evaluator` proceeds to call the user evaluator with
`None` as the domain filename instead of exiting with code 32. -/
theorem C7_domain_discovery :
    domain_basenames "dir/task2.sas" =
      ["domain.pddl", "task2-domain.sas", "tas-domain.pddl",
       "domain_task2.sas", "domain-task2.sas"] ∧
    _find_domain_filename ["dir/tas-domain.pddl", "dir/domain-task2.sas"]
      "dir/task2.sas" = some "dir/tas-domain.pddl" ∧
    _find_domain_filename [] "dir/task2.sas" = none ∧
    run_evaluator_fallback [] "dir/task2.sas" =
      ShimAction.evaluateOn none "dir/task2.sas" ∧
    run_evaluator_fallback [] "dir/task2.sas" ≠
      ShimAction.exitWith EXIT_CODE_CRITICAL := by
  refine ⟨by decide, by decide, by decide, by decide, by decide⟩

/-- C8: the claim states the temporary task files are unlinked on every
exit path of the scope, including exceptions and the process-exit
primitive.  The code violates this: in both `temporary_file`
(src/machetli/sas/files.py) and `temporary_files`
(src/machetli/pddl/files.py) the `os.remove` calls after the `yield` are
not wrapped in `try`/`finally`, so when the body raises — and the shim's
body always leaves via `sys.exit` — the thrown exception skips the
cleanup.  Only the normal-completion path unlinks. -/
theorem C8_tempfile_not_unlinked :
    sas_temporary_file_removes (sasEvaluatorBody true) = false ∧
    sas_temporary_file_removes (sasEvaluatorBody false) = false ∧
    sas_temporary_file_removes BodyExit.raised = false ∧
    pddl_temporary_files_removes
      (BodyExit.sysExit EXIT_CODE_BEHAVIOR_PRESENT) = false ∧
    pddl_temporary_files_removes BodyExit.raised = false ∧
    sas_temporary_file_removes BodyExit.normal = true := by
  refine ⟨rfl, rfl, rfl, rfl, rfl, rfl⟩

/-- C9: the claim states that on `SubmissionError`/`PollingError` the
search logs the cause and terminates by returning.  The code violates
the "returns" part: the `except` clauses (src/machetli/search.py lines
131-134) only log and fall through to `if message:`, and on the first
loop pass the locals `improving_state`/`message` were never assigned, so
the search dies with an `UnboundLocalError` instead of returning. -/
theorem C9_search_crashes_on_driver_error :
    ∀ m : String,
      searchIterationStep (σ := Nat) none
        (Except.error (DriverErr.submissionError m)) =
          StepResult.unboundLocalCrash ∧
      searchIterationStep (σ := Nat) none
        (Except.error (DriverErr.pollingError m)) =
          StepResult.unboundLocalCrash := by
  intro m
  exact ⟨rfl, rfl⟩

/-! ## Rename lemmas (for C6) -/

/-- Binding a successful `Except` computation applies the continuation. -/
@[simp]
theorem pyBind_ok {α β : Type} (a : α) (f : α → Except PyErr β) :
    (Except.ok a >>= f) = f a := rfl

/-- Binding a failed `Except` computation propagates the error. -/
@[simp]
theorem pyBind_error {α β : Type} (e : PyErr) (f : α → Except PyErr β) :
    ((Except.error e : Except PyErr α) >>= f) = Except.error e := rfl

/-- In-range alphabet lookup succeeds. -/
theorem alphabet_getElem?_lt {j : Nat} (h : j < 26) :
    alphabet[j]? = some (letterAt j) := by
  interval_cases j <;> rfl

/-- In-range value renaming produces `expectedValueName`. -/
theorem renamedValueName_ok (i : Nat) {j : Nat} (h : j < 26) :
    renamedValueName i j = Except.ok (expectedValueName i j) := by
  interval_cases j <;> rfl

/-- Pointwise description of `applySets`. -/
theorem applySets_get? (i : Nat) :
    ∀ (js : List Nat) (row : List String),
      (∀ j ∈ js, j < row.length) → ∀ m,
      (applySets i row js)[m]? =
        if m ∈ js then some (expectedValueName i m) else row[m]? := by
  intro js
  induction js with
  | nil => intro row _ m; simp [applySets]
  | cons j js ih =>
    intro row h m
    have hj : j < row.length := h j (List.mem_cons_self j js)
    have h2 : ∀ j2 ∈ js, j2 < (row.set j (expectedValueName i j)).length := by
      intro j2 hj2
      simpa [List.length_set] using h j2 (List.mem_cons_of_mem j hj2)
    have hcons : applySets i row (j :: js) =
        applySets i (row.set j (expectedValueName i j)) js := rfl
    rw [hcons, ih _ h2 m]
    by_cases hm : m ∈ js
    · simp [hm, List.mem_cons]
    · by_cases hmj : m = j
      · subst hmj
        simp [hm, List.getElem?_set_self hj]
      · simp [hm, hmj, List.getElem?_set_ne (fun hh => hmj hh.symm)]

/-- Renaming every index of a full-length row replaces the whole row. -/
theorem applySets_range (i : Nat) (row : List String) (s : Nat)
    (h : row.length = s) :
    applySets i row (List.range s) = (List.range s).map (expectedValueName i) := by
  rw [List.ext_get?_iff]
  intro m
  rw [List.get?_eq_getElem?, List.get?_eq_getElem?,
    applySets_get? i (List.range s) row
      (fun j hj => by rw [List.mem_range] at hj; omega) m]
  by_cases hm : m < s
  · rw [List.getElem?_map, List.getElem?_range hm]
    simp [List.mem_range, hm]
  · have h1 : row[m]? = none := List.getElem?_eq_none (by omega)
    have h2 : ((List.range s).map (expectedValueName i))[m]? = none :=
      List.getElem?_eq_none
        (by simp only [List.length_map, List.length_range]; omega)
    simp [List.mem_range, hm, h1, h2]

/-- The inner rename loop succeeds on in-range indices and rewrites only
row `i`, by the fold of its item assignments. -/
theorem renameRowLoop_ok (i : Nat) :
    ∀ (js : List Nat) (names : List (List String)) (row : List String),
      names[i]? = some row →
      (∀ j ∈ js, j < 26 ∧ j < row.length) →
      ∃ names2, renameRowLoop names i js = Except.ok names2 ∧
        names2[i]? = some (applySets i row js) ∧
        ∀ m, m ≠ i → names2[m]? = names[m]? := by
  intro js
  induction js with
  | nil =>
    intro names row hrow _
    exact ⟨names, rfl, by simpa [applySets] using hrow, fun m _ => rfl⟩
  | cons j js ih =>
    intro names row hrow hb
    obtain ⟨hj26, hjr⟩ := hb j (List.mem_cons_self j js)
    have hi : i < names.length := (List.getElem?_eq_some.mp hrow).1
    have hstep : renameRowLoop names i (j :: js) =
        renameRowLoop (names.set i (row.set j (expectedValueName i j))) i js := by
      simp [renameRowLoop, renamedValueName_ok i hj26, pyIndex, pySet,
        List.get?_eq_getElem?, hrow, hjr, hi]
    have hrow2 : (names.set i (row.set j (expectedValueName i j)))[i]? =
        some (row.set j (expectedValueName i j)) :=
      List.getElem?_set_self hi
    have hb2 : ∀ j2 ∈ js, j2 < 26 ∧
        j2 < (row.set j (expectedValueName i j)).length := by
      intro j2 hj2
      simpa [List.length_set] using hb j2 (List.mem_cons_of_mem j hj2)
    obtain ⟨names3, hloop, hgi, hgo⟩ := ih _ _ hrow2 hb2
    refine ⟨names3, hstep.trans hloop, ?_, ?_⟩
    · simpa [applySets] using hgi
    · intro m hm
      rw [hgo m hm, List.getElem?_set_ne (fun hh => hm hh.symm)]

/-- The inner rename loop raises `IndexError` as soon as it reaches an
alphabet index `≥ 26`. -/
theorem renameRowLoop_overflow (i : Nat) :
    ∀ (js : List Nat) (names : List (List String)) (row : List String),
      names[i]? = some row →
      (∀ j ∈ js, j < row.length) →
      (∃ j ∈ js, 26 ≤ j) →
      renameRowLoop names i js = Except.error PyErr.indexError := by
  intro js
  induction js with
  | nil => intro names row _ _ hex; simp at hex
  | cons j js ih =>
    intro names row hrow hb hex
    by_cases hj26 : j < 26
    · obtain ⟨j2, hj2, hge⟩ := hex
      have hj2tail : j2 ∈ js := by
        rcases List.mem_cons.mp hj2 with hh | hh
        · omega
        · exact hh
      have hjr : j < row.length := hb j (List.mem_cons_self j js)
      have hi : i < names.length := (List.getElem?_eq_some.mp hrow).1
      have hstep : renameRowLoop names i (j :: js) =
          renameRowLoop (names.set i (row.set j (expectedValueName i j))) i js := by
        simp [renameRowLoop, renamedValueName_ok i hj26, pyIndex, pySet,
          List.get?_eq_getElem?, hrow, hjr, hi]
      rw [hstep]
      exact ih _ _ (List.getElem?_set_self hi)
        (fun j3 hj3 => by
          simpa [List.length_set] using hb j3 (List.mem_cons_of_mem j hj3))
        ⟨j2, hj2tail, hge⟩
    · have hnone : alphabet[j]? = none := by
        apply List.getElem?_eq_none
        have : alphabet.length = 26 := by decide
        omega
      simp [renameRowLoop, renamedValueName, pyIndex, List.get?_eq_getElem?,
        hnone]

/-- The outer rename loop, on an enumeration with distinct indices whose
rows have the enumerated lengths, all `≤ 26`: it succeeds and replaces
exactly the listed rows by fully renamed rows. -/
theorem renameVarsLoop_ok :
    ∀ (ps : List (Nat × Int)) (names : List (List String)),
      (ps.map Prod.fst).Nodup →
      (∀ p ∈ ps, ∃ row, names[p.1]? = some row ∧ (row.length : Int) = p.2) →
      (∀ p ∈ ps, p.2 ≤ 26) →
      ∃ names2, renameVarsLoop names ps = Except.ok names2 ∧
        (∀ p ∈ ps, names2[p.1]? =
          some ((List.range (toNatC p.2)).map (expectedValueName p.1))) ∧
        (∀ m, m ∉ ps.map Prod.fst → names2[m]? = names[m]?) := by
  intro ps
  induction ps with
  | nil =>
    intro names _ _ _
    exact ⟨names, rfl, fun p hp => absurd hp (List.not_mem_nil p), fun m _ => rfl⟩
  | cons p ps ih =>
    intro names hnd hps hle
    obtain ⟨i, size⟩ := p
    obtain ⟨row, hrow, hlenrow⟩ := hps (i, size) (List.mem_cons_self _ ps)
    have hsz : toNatC size = row.length := by
      unfold toNatC
      split <;> omega
    have hb : ∀ j ∈ List.range (toNatC size), j < 26 ∧ j < row.length := by
      intro j hj
      rw [List.mem_range] at hj
      have h26 : size ≤ 26 := hle (i, size) (List.mem_cons_self _ ps)
      have h27 : toNatC size ≤ 26 := by unfold toNatC; split <;> omega
      omega
    obtain ⟨names2, hloop1, hgi, hgo⟩ :=
      renameRowLoop_ok i (List.range (toNatC size)) names row hrow hb
    have hnd2 : (ps.map Prod.fst).Nodup := (List.nodup_cons.mp hnd).2
    have hhead : i ∉ ps.map Prod.fst := (List.nodup_cons.mp hnd).1
    have hps2 : ∀ q ∈ ps, ∃ row2, names2[q.1]? = some row2 ∧
        (row2.length : Int) = q.2 := by
      intro q hq
      obtain ⟨row2, hr2, hl2⟩ := hps q (List.mem_cons_of_mem _ hq)
      have hne : q.1 ≠ i := by
        intro hh
        exact hhead (hh ▸ List.mem_map_of_mem Prod.fst hq)
      exact ⟨row2, (hgo q.1 hne).trans hr2, hl2⟩
    obtain ⟨names3, hloop2, hgi2, hgo2⟩ := ih names2 hnd2 hps2
      (fun q hq => hle q (List.mem_cons_of_mem _ hq))
    refine ⟨names3, ?_, ?_, ?_⟩
    · simp [renameVarsLoop, hloop1, hloop2]
    · intro q hq
      rcases List.mem_cons.mp hq with hh | hh
      · subst hh
        rw [hgo2 i hhead, hgi, applySets_range i row (toNatC size) hsz.symm]
      · exact hgi2 q hh
    · intro m hm
      rw [List.map_cons, List.mem_cons] at hm
      push_neg at hm
      rw [hgo2 m hm.2, hgo m hm.1]

/-- The outer rename loop raises `IndexError` when some listed row length
exceeds 26. -/
theorem renameVarsLoop_overflow :
    ∀ (ps : List (Nat × Int)) (names : List (List String)),
      (ps.map Prod.fst).Nodup →
      (∀ p ∈ ps, ∃ row, names[p.1]? = some row ∧ (row.length : Int) = p.2) →
      (∃ p ∈ ps, 26 < p.2) →
      renameVarsLoop names ps = Except.error PyErr.indexError := by
  intro ps
  induction ps with
  | nil => intro names _ _ hex; simp at hex
  | cons p ps ih =>
    intro names hnd hps hex
    obtain ⟨i, size⟩ := p
    obtain ⟨row, hrow, hlenrow⟩ := hps (i, size) (List.mem_cons_self _ ps)
    have hsz : toNatC size = row.length := by
      unfold toNatC
      split <;> omega
    by_cases hbig : 26 < size
    · have hoverflow : renameRowLoop names i (List.range (toNatC size)) =
          Except.error PyErr.indexError := by
        apply renameRowLoop_overflow i _ names row hrow
        · intro j hj
          rw [List.mem_range] at hj
          omega
        · refine ⟨26, ?_, le_refl 26⟩
          rw [List.mem_range]
          unfold toNatC
          split <;> omega
      simp [renameVarsLoop, hoverflow]
    · have hb : ∀ j ∈ List.range (toNatC size), j < 26 ∧ j < row.length := by
        intro j hj
        rw [List.mem_range] at hj
        have h27 : toNatC size ≤ 26 := by unfold toNatC; split <;> omega
        omega
      obtain ⟨names2, hloop1, hgi, hgo⟩ :=
        renameRowLoop_ok i (List.range (toNatC size)) names row hrow hb
      have hnd2 : (ps.map Prod.fst).Nodup := (List.nodup_cons.mp hnd).2
      have hhead : i ∉ ps.map Prod.fst := (List.nodup_cons.mp hnd).1
      have hps2 : ∀ q ∈ ps, ∃ row2, names2[q.1]? = some row2 ∧
          (row2.length : Int) = q.2 := by
        intro q hq
        obtain ⟨row2, hr2, hl2⟩ := hps q (List.mem_cons_of_mem _ hq)
        have hne : q.1 ≠ i := by
          intro hh
          exact hhead (hh ▸ List.mem_map_of_mem Prod.fst hq)
        exact ⟨row2, (hgo q.1 hne).trans hr2, hl2⟩
      have hex2 : ∃ q ∈ ps, 26 < q.2 := by
        obtain ⟨q, hq, hqs⟩ := hex
        rcases List.mem_cons.mp hq with hh | hh
        · rw [hh] at hqs; omega
        · exact ⟨q, hh, hqs⟩
      have hrec := ih names2 hnd2 hps2 hex2
      simp [renameVarsLoop, hloop1, hrec]

/-- The operator rename loop succeeds on in-range indices and rewrites
exactly the listed operator names. -/
theorem renameOpsLoop_ok :
    ∀ (ids : List Nat) (ops : List SASOperator),
      ids.Nodup →
      (∀ i ∈ ids, i < 26 ∧ i < ops.length) →
      ∃ ops2, renameOpsLoop ops ids = Except.ok ops2 ∧
        (∀ m ∈ ids, ops2[m]? = (ops[m]?).map (fun op =>
          { op with name := "(" ++ String.mk [letterAt m] ++ ")" })) ∧
        (∀ m, m ∉ ids → ops2[m]? = ops[m]?) := by
  intro ids
  induction ids with
  | nil =>
    intro ops _ _
    exact ⟨ops, rfl, fun m hm => absurd hm (List.not_mem_nil m), fun m _ => rfl⟩
  | cons i ids ih =>
    intro ops hnd hb
    obtain ⟨hi26, hilen⟩ := hb i (List.mem_cons_self i ids)
    obtain ⟨op, hop⟩ : ∃ op, ops[i]? = some op := by
      cases hg : ops[i]? with
      | none =>
        have := List.getElem?_eq_none_iff.mp hg
        omega
      | some op => exact ⟨op, rfl⟩
    have hstep : renameOpsLoop ops (i :: ids) =
        renameOpsLoop (ops.set i
          { op with name := "(" ++ String.mk [letterAt i] ++ ")" })
          ids := by
      simp [renameOpsLoop, pyIndex, alphabet_getElem?_lt hi26,
        List.get?_eq_getElem?, hop, pySet, hilen]
    have hnd2 : ids.Nodup := (List.nodup_cons.mp hnd).2
    have hhead : i ∉ ids := (List.nodup_cons.mp hnd).1
    obtain ⟨ops3, hloop, hgi, hgo⟩ := ih
      (ops.set i { op with name := "(" ++ String.mk [letterAt i] ++ ")" }) hnd2
      (fun m hm => by
        have := hb m (List.mem_cons_of_mem i hm)
        simpa [List.length_set] using this)
    refine ⟨ops3, hstep.trans hloop, ?_, ?_⟩
    · intro m hm
      rcases List.mem_cons.mp hm with hh | hh
      · subst hh
        rw [hgo m hhead, List.getElem?_set_self hilen, hop]
        rfl
      · have hne : i ≠ m := by
          intro hh2
          exact hhead (hh2 ▸ hh)
        rw [hgi m hh, List.getElem?_set_ne hne]
    · intro m hm
      rw [List.mem_cons] at hm
      push_neg at hm
      rw [hgo m hm.2, List.getElem?_set_ne (fun hh => hm.1 hh.symm)]

/-- The operator rename loop raises `IndexError` as soon as it reaches an
alphabet index `≥ 26`. -/
theorem renameOpsLoop_overflow :
    ∀ (ids : List Nat) (ops : List SASOperator),
      (∀ i ∈ ids, i < ops.length) →
      (∃ i ∈ ids, 26 ≤ i) →
      renameOpsLoop ops ids = Except.error PyErr.indexError := by
  intro ids
  induction ids with
  | nil => intro ops _ hex; simp at hex
  | cons i ids ih =>
    intro ops hb hex
    by_cases hi26 : i < 26
    · obtain ⟨i2, hi2, hge⟩ := hex
      have hi2tail : i2 ∈ ids := by
        rcases List.mem_cons.mp hi2 with hh | hh
        · omega
        · exact hh
      have hilen : i < ops.length := hb i (List.mem_cons_self i ids)
      obtain ⟨op, hop⟩ : ∃ op, ops[i]? = some op := by
        cases hg : ops[i]? with
        | none =>
          have := List.getElem?_eq_none_iff.mp hg
          omega
        | some op => exact ⟨op, rfl⟩
      have hstep : renameOpsLoop ops (i :: ids) =
          renameOpsLoop (ops.set i
            { op with name := "(" ++ String.mk [letterAt i] ++ ")" })
            ids := by
        simp [renameOpsLoop, pyIndex, alphabet_getElem?_lt hi26,
          List.get?_eq_getElem?, hop, pySet, hilen]
      rw [hstep]
      exact ih _
        (fun m hm => by
          simpa [List.length_set] using hb m (List.mem_cons_of_mem i hm))
        ⟨i2, hi2tail, hge⟩
    · have hnone : alphabet[i]? = none := by
        apply List.getElem?_eq_none
        have : alphabet.length = 26 := by decide
        omega
      simp [renameOpsLoop, pyIndex, List.get?_eq_getElem?, hnone]


/-- C6: for a grounded task whose value-name rows have the lengths the
data model prescribes, if every per-variable domain size and the operator
count are at most 26, `renamed_sas` succeeds, rewriting the name of value
`j` of variable `i` to the upper-case `j`-th alphabet letter followed by
the variable index `i` and the name of operator `i` to the lower-case
`i`-th letter wrapped in parentheses, leaving every other field
unchanged; and when a domain size or the operator count exceeds 26, the
rename fails (the spec's `TooLarge` error, realised in the code as the
`IndexError` raised by indexing the 26-letter alphabet). -/
theorem C6_rename (t : SASTask)
    (hlen : t.vars.value_names.length = t.vars.ranges.length)
    (hrows : ∀ (i : Nat) (r : Int) (ns : List String),
      t.vars.ranges[i]? = some r →
      t.vars.value_names[i]? = some ns → (ns.length : Int) = r) :
    ((∀ r ∈ t.vars.ranges, r ≤ 26) → t.operators.length ≤ 26 →
      ∃ t2, renamed_sas t = Except.ok t2 ∧
        (∀ i r, t.vars.ranges[i]? = some r →
          t2.vars.value_names[i]? =
            some ((List.range (toNatC r)).map (expectedValueName i))) ∧
        (∀ (i : Nat) (op : SASOperator), t.operators[i]? = some op →
          t2.operators[i]? =
            some { op with name := "(" ++ String.mk [letterAt i] ++ ")" }) ∧
        t2.vars.ranges = t.vars.ranges ∧
        t2.vars.axiom_layers = t.vars.axiom_layers ∧
        t2.mutexes = t.mutexes ∧ t2.init = t.init ∧ t2.goal = t.goal ∧
        t2.axioms = t.axioms ∧ t2.metric = t.metric) ∧
    (((∃ r ∈ t.vars.ranges, 26 < r) ∨ 26 < t.operators.length) →
      renamed_sas t = Except.error PyErr.indexError) := by
  have hnd : (t.vars.ranges.enum.map Prod.fst).Nodup :=
    List.nodup_enum_map_fst _
  have hps : ∀ p ∈ t.vars.ranges.enum, ∃ row,
      t.vars.value_names[p.1]? = some row ∧ (row.length : Int) = p.2 := by
    intro p hp
    obtain ⟨i, r⟩ := p
    have hr : t.vars.ranges[i]? = some r :=
      List.mk_mem_enum_iff_getElem?.mp hp
    have hlt : i < t.vars.ranges.length := (List.getElem?_eq_some.mp hr).1
    obtain ⟨ns, hns⟩ : ∃ ns, t.vars.value_names[i]? = some ns := by
      cases hg : t.vars.value_names[i]? with
      | none =>
        have := List.getElem?_eq_none_iff.mp hg
        omega
      | some ns => exact ⟨ns, rfl⟩
    exact ⟨ns, hns, hrows i r ns hr hns⟩
  constructor
  · intro hb26 hople
    have hle : ∀ p ∈ t.vars.ranges.enum, p.2 ≤ 26 := by
      intro p hp
      obtain ⟨i, r⟩ := p
      have hr : t.vars.ranges[i]? = some r :=
        List.mk_mem_enum_iff_getElem?.mp hp
      exact hb26 r (List.mem_iff_getElem?.mpr ⟨i, hr⟩)
    obtain ⟨names2, hloop1, hgi, hgo⟩ :=
      renameVarsLoop_ok t.vars.ranges.enum t.vars.value_names hnd hps hle
    obtain ⟨ops2, hloop2, hgi2, hgo2⟩ :=
      renameOpsLoop_ok (List.range t.operators.length) t.operators
        (List.nodup_range _)
        (fun m hm => by rw [List.mem_range] at hm; omega)
    refine ⟨{ t with
        vars := { t.vars with value_names := names2 },
        operators := ops2 }, ?_, ?_, ?_, rfl, rfl, rfl, rfl, rfl, rfl, rfl⟩
    · simp [renamed_sas, hloop1, hloop2]
    · intro i r hr
      exact hgi (i, r) (List.mk_mem_enum_iff_getElem?.mpr hr)
    · intro i op hop
      have hilen : i < t.operators.length := (List.getElem?_eq_some.mp hop).1
      have hh := hgi2 i (List.mem_range.mpr hilen)
      rw [hh, hop]
      rfl
  · intro hover
    by_cases hbig : ∃ r ∈ t.vars.ranges, 26 < r
    · obtain ⟨r, hrm, hrb⟩ := hbig
      obtain ⟨i, hi⟩ := List.mem_iff_getElem?.mp hrm
      have herr := renameVarsLoop_overflow t.vars.ranges.enum
        t.vars.value_names hnd hps
        ⟨(i, r), List.mk_mem_enum_iff_getElem?.mpr hi, hrb⟩
      simp [renamed_sas, herr]
    · have hople : 26 < t.operators.length := by
        rcases hover with h | h
        · exact absurd h hbig
        · exact h
      push_neg at hbig
      have hle : ∀ p ∈ t.vars.ranges.enum, p.2 ≤ 26 := by
        intro p hp
        obtain ⟨i, r⟩ := p
        have hr : t.vars.ranges[i]? = some r :=
          List.mk_mem_enum_iff_getElem?.mp hp
        exact hbig r (List.mem_iff_getElem?.mpr ⟨i, hr⟩)
      obtain ⟨names2, hloop1, _, _⟩ :=
        renameVarsLoop_ok t.vars.ranges.enum t.vars.value_names hnd hps hle
      have herr2 := renameOpsLoop_overflow (List.range t.operators.length)
        t.operators (fun m hm => List.mem_range.mp hm)
        ⟨26, List.mem_range.mpr (by omega), le_refl 26⟩
      simp [renamed_sas, hloop1, herr2]

/-- C6 witness: the spec's minimal task satisfies the data-model
hypotheses and its rename succeeds (value names become `A0`, `B0`, the
operator name `(a)`). -/
theorem C6_witness :
    ∃ t2, renamed_sas sasMinimal = Except.ok t2 ∧
      (∀ i r, sasMinimal.vars.ranges[i]? = some r →
        t2.vars.value_names[i]? =
          some ((List.range (toNatC r)).map (expectedValueName i))) ∧
      (∀ (i : Nat) (op : SASOperator), sasMinimal.operators[i]? = some op →
        t2.operators[i]? =
          some { op with name := "(" ++ String.mk [letterAt i] ++ ")" }) ∧
      t2.vars.ranges = sasMinimal.vars.ranges ∧
      t2.vars.axiom_layers = sasMinimal.vars.axiom_layers ∧
      t2.mutexes = sasMinimal.mutexes ∧ t2.init = sasMinimal.init ∧
      t2.goal = sasMinimal.goal ∧ t2.axioms = sasMinimal.axioms ∧
      t2.metric = sasMinimal.metric :=
  (C6_rename sasMinimal (by decide)
    (by
      intro i r ns h1 h2
      match i, h1, h2 with
      | 0, h1, h2 =>
        injection h1 with hr
        injection h2 with hns
        subst hr
        subst hns
        decide)).1
    (by decide) (by decide)

end Machetli
